import Mathlib

/-!
Shallow embedding of the Suorya-Website image pipeline:
  * upload_images.js  — ingestion pipeline (walker, variant encoder, GridFS
    uploader, metadata insertion), embedded in namespace Upload;
  * server.js         — read-side file-streaming endpoint, embedded in
    namespace Server.

Machine-level concerns (actual image codecs, byte buffers, base64, wall-clock
timestamps) are abstracted: an image buffer is represented by its decoded
dimensions/format, and a derived variant buffer by the resize/encode
parameters that produced it, which is exactly the information the sharp
calls in the source manipulate.  Environment nondeterminism (whether a file
is readable, whether a given upload or insert succeeds) is made explicit as
boolean fields of the per-file model, so that every failure path of the
source is representable.
-/

namespace Upload

/-- A decodable source image, as seen by sharp metadata: width, height and
format.  A buffer that sharp cannot decode is represented by `Option.none`
at its use site. -/
structure Image where
  width : Nat
  height : Nat
  format : String
deriving DecidableEq, Repr

/-- Width selection of sharp resize with a target width: with
`withoutEnlargement: true` the source is never upscaled (result is the
minimum of target and source width); without it the target width is
produced even when that enlarges the source. -/
def sharpResizeWidth (target : Nat) (withoutEnlargement : Bool) (srcWidth : Nat) : Nat :=
  if withoutEnlargement then min target srcWidth else target

/-- A derived variant buffer: the resize/encode parameters sharp applied to
the source image.  Stands for the bytes `.toBuffer()` returns. -/
structure VariantBuf where
  width : Nat
  quality : Nat
  blurred : Bool
  src : Image
deriving DecidableEq, Repr

/-- The thumbnail pipeline of processFile:
resize width 600 withoutEnlargement, webp quality 75. -/
def mkThumb (img : Image) : VariantBuf :=
  { width := sharpResizeWidth 600 true img.width, quality := 75, blurred := false, src := img }

/-- The full-variant pipeline of processFile:
resize width 1600 withoutEnlargement, webp quality 82. -/
def mkFull (img : Image) : VariantBuf :=
  { width := sharpResizeWidth 1600 true img.width, quality := 82, blurred := false, src := img }

/-- The placeholder (lqip) pipeline of processFile:
resize width 20 (no withoutEnlargement option), blur(1), webp quality 30. -/
def mkLqip (img : Image) : VariantBuf :=
  { width := sharpResizeWidth 20 false img.width, quality := 30, blurred := true, src := img }

/-- Abstract base64 rendering of a variant buffer: an injective textual
encoding of the parameters that determine the encoded bytes.  Stands for
`buffer.toString("base64")`. -/
def VariantBuf.base64 (b : VariantBuf) : String :=
  "w" ++ toString b.width ++ "q" ++ toString b.quality ++
    (if b.blurred then "b1" else "b0") ++ "s" ++ toString b.src.width ++ "x" ++
    toString b.src.height ++ b.src.format

/-- Per-file behavior of the environment: whether readFileSync succeeds,
whether the buffer decodes (none = sharp throws), and whether each of the
two GridFS uploads and the metadata insert succeeds.  These flags make the
failure paths of processFile explicit. -/
structure FileSpec where
  readable : Bool
  image : Option Image
  thumbUploadOk : Bool
  fullUploadOk : Bool
  insertOk : Bool
deriving DecidableEq, Repr

/-- A directory entry of the ingestion tree, as fs.readdirSync lists it:
either a file (with its environment behavior) or a directory with its own
listing, in listing order. -/
inductive Entry where
  | file (name : String) (spec : FileSpec)
  | dir (name : String) (entries : List Entry)
deriving Repr

/-- Name of a directory entry. -/
def entryName : Entry → String
  | .file n _ => n
  | .dir n _ => n

/-- statSync(...).isDirectory() on an entry. -/
def isDirEntry : Entry → Bool
  | .file _ _ => false
  | .dir _ _ => true

/-- readdirSync of a directory entry (empty on a plain file, where the
source never calls it). -/
def dirEntries : Entry → List Entry
  | .file _ _ => []
  | .dir _ es => es

/-- ASCII lower-casing of one character (the semantics the i flag of the
extension regex needs on extension letters). -/
def charLower (c : Char) : Char :=
  if 65 ≤ c.toNat && c.toNat ≤ 90 then Char.ofNat (c.toNat + 32) else c

/-- The characters of a name, ASCII-lowercased. -/
def lowerData (name : String) : List Char :=
  name.data.map charLower

/-- The accepted-extension test of the source, the regex
backslash.(jpg|jpeg|png|webp) dollar with the i flag: the name ends,
case-insensitively, in one of the four accepted extensions. -/
def isImageExt (name : String) : Bool :=
  let n := lowerData name
  ".jpg".data.isSuffixOf n || ".jpeg".data.isSuffixOf n ||
    ".png".data.isSuffixOf n || ".webp".data.isSuffixOf n

/-- filename.replace of the extension regex by the empty string: strips one
accepted extension from the end, case-insensitively. -/
def stripImageExt (name : String) : String :=
  let n := lowerData name
  if ".jpeg".data.isSuffixOf n || ".webp".data.isSuffixOf n then name.dropRight 5
  else if ".jpg".data.isSuffixOf n || ".png".data.isSuffixOf n then name.dropRight 4
  else name

/-- readdirSync(...).filter(isDirectory) over a listing. -/
def subdirsOf (es : List Entry) : List Entry :=
  es.filter isDirEntry

/-- readdirSync(...).filter(extension regex) over a listing. -/
def imageFilesIn (es : List Entry) : List Entry :=
  es.filter (fun e => isImageExt (entryName e))

/-- fs.readFileSync on an entry: fails (throws) on a directory or an
unreadable file, otherwise hands the file's behavior to the pipeline. -/
def readFileEntry : Entry → Option FileSpec
  | .dir _ _ => none
  | .file _ spec => if spec.readable then some spec else none

/-- Tag set stored with each uploaded blob (the metadata argument of
uploadBufferToGridFS). -/
structure Tags where
  category : String
  subcategory : Option String
  subsubcategory : Option String
  variant : String
deriving DecidableEq, Repr

/-- A GridFS blob: store-assigned id, logical filename, content type, tag
set and the uploaded bytes. -/
structure BlobRecord where
  id : Nat
  filename : String
  contentType : String
  tags : Tags
  buf : VariantBuf
deriving DecidableEq, Repr

/-- The GridFS bucket: a counter of store-assigned ids and the blobs in
upload order. -/
structure Store where
  nextId : Nat
  blobs : List BlobRecord
deriving DecidableEq, Repr

/-- The fatal error classes of the pipeline (everything from decoding
onward; read errors are recovered per-file and are not errors here). -/
inductive PipelineError where
  | decodeError (filename : String)
  | uploadError (filename : String)
  | indexWriteError (filename : String)
deriving DecidableEq, Repr

/-- uploadBufferToGridFS: on success appends a blob with the next
store-assigned id and returns the file record; on a stream/store fault the
pipeline call rejects and no identifier is returned. -/
def uploadBufferToGridFS (store : Store) (ok : Bool) (buf : VariantBuf)
    (filename : String) (tags : Tags) (contentType : String) :
    Except PipelineError (Store × BlobRecord) :=
  if ok then
    let fileRec := { id := store.nextId, filename := filename, contentType := contentType,
                     tags := tags, buf := buf : BlobRecord }
    Except.ok ({ nextId := store.nextId + 1, blobs := store.blobs ++ [fileRec] }, fileRec)
  else
    Except.error (PipelineError.uploadError filename)

/-- One document of the imagesMeta collection (metaDoc in processFile).
The wall-clock createdAt field is outside the model. -/
structure MetaDoc where
  filename : String
  alt : String
  category : String
  subcategory : Option String
  subsubcategory : Option String
  thumbnailId : Nat
  fullId : Nat
  lqip : String
  origWidth : Option Nat
  origHeight : Option Nat
  origFormat : Option String
deriving DecidableEq, Repr

/-- A console line the run prints.  render gives the literal text. -/
inductive LogLine where
  | processing (filename category : String) (subcategory subsubcategory : Option String)
  | readFail (filename : String)
  | success (filename : String)
  | complete
deriving DecidableEq, Repr

/-- The literal console text of a log line. -/
def LogLine.render : LogLine → String
  | .processing f c s ss =>
      "Processing " ++ f ++ " -> " ++ c ++
        (match s with | none => " -> (none)" | some s0 => " -> " ++ s0) ++
        (match ss with | none => "" | some ss0 => " -> " ++ ss0)
  | .readFail f => "FAILED: Could not read file " ++ f ++ ". Skipping."
  | .success f => "Success: " ++ f ++ " inserted."
  | .complete => "*** COMPLETE: All images processed. ***"

/-- The mutable world of a run: the GridFS store, the imagesMeta collection
in insertion order, the count of insertOne calls performed, and the console
log. -/
structure WorldState where
  store : Store
  metaDocs : List MetaDoc
  insertAttempts : Nat
  log : List LogLine
deriving DecidableEq, Repr

/-- The state at the start of a run. -/
def initialState : WorldState :=
  { store := { nextId := 0, blobs := [] }, metaDocs := [], insertAttempts := 0, log := [] }

/-- One (file, category, subcategory, sub-subcategory) tuple the walker
hands to processFile. -/
structure Task where
  entry : Entry
  category : String
  subcategory : Option String
  subsubcategory : Option String
deriving Repr

/-- Filename of a task, path.basename of the file path. -/
def taskFilename (t : Task) : String :=
  entryName t.entry

/-- processFile: reads the file (a read failure is recovered: logged and
skipped, returning null), derives the three variants, uploads thumbnail and
full to GridFS, builds metaDoc from the returned ids and inserts it once.
Any failure from decoding onward is returned as an error together with the
state reached so far (blobs uploaded before the failure stay in the store). -/
def processFile (st : WorldState) (t : Task) : WorldState × Except PipelineError (Option Nat) :=
  let filename := taskFilename t
  match readFileEntry t.entry with
  | none =>
      ({ st with log := st.log ++ [LogLine.readFail filename] }, Except.ok none)
  | some spec =>
    match spec.image with
    | none => (st, Except.error (PipelineError.decodeError filename))
    | some img =>
      let thumbBuffer := mkThumb img
      let fullBuffer := mkFull img
      let lqipBuffer := mkLqip img
      let lqipDataUri := "data:image/webp;base64," ++ lqipBuffer.base64
      match uploadBufferToGridFS st.store spec.thumbUploadOk thumbBuffer
          (filename ++ "-thumb.webp")
          { category := t.category, subcategory := t.subcategory,
            subsubcategory := t.subsubcategory, variant := "thumbnail" } "image/webp" with
      | Except.error e => (st, Except.error e)
      | Except.ok (store1, thumbFile) =>
        match uploadBufferToGridFS store1 spec.fullUploadOk fullBuffer
            (filename ++ "-full.webp")
            { category := t.category, subcategory := t.subcategory,
              subsubcategory := t.subsubcategory, variant := "full" } "image/webp" with
        | Except.error e => ({ st with store := store1 }, Except.error e)
        | Except.ok (store2, fullFile) =>
          let metaDoc : MetaDoc :=
            { filename := filename,
              alt := stripImageExt filename,
              category := t.category,
              subcategory := t.subcategory,
              subsubcategory := t.subsubcategory,
              thumbnailId := thumbFile.id,
              fullId := fullFile.id,
              lqip := lqipDataUri,
              origWidth := if img.width = 0 then none else some img.width,
              origHeight := if img.height = 0 then none else some img.height,
              origFormat := if img.format = "" then none else some img.format }
          let st1 := { st with store := store2, insertAttempts := st.insertAttempts + 1 }
          if spec.insertOk then
            let insertedId := st1.metaDocs.length
            ({ st1 with metaDocs := st1.metaDocs ++ [metaDoc],
                        log := st1.log ++ [LogLine.success filename] },
             Except.ok (some insertedId))
          else
            (st1, Except.error (PipelineError.indexWriteError filename))

/-- The tuples yielded inside one sub-subcategory directory: its image
files, tagged with category, subcategory and that sub-subcategory. -/
def filesInSubsub (category subcategory : String) (subsub : Entry) : List Task :=
  (imageFilesIn (dirEntries subsub)).map fun f =>
    { entry := f, category := category, subcategory := some subcategory,
      subsubcategory := some (entryName subsub) }

/-- The tuples yielded for one subcategory directory: when it has
sub-subdirectories, only their files (loose files directly under the
subcategory are skipped); otherwise its own image files with
sub-subcategory null. -/
def walkSubcat (category : String) (subcat : Entry) : List Task :=
  let subsubdirs := subdirsOf (dirEntries subcat)
  if subsubdirs.length > 0 then
    subsubdirs.flatMap (filesInSubsub category (entryName subcat))
  else
    (imageFilesIn (dirEntries subcat)).map fun f =>
      { entry := f, category := category, subcategory := some (entryName subcat),
        subsubcategory := none }

/-- The tuples yielded for one category directory: with no subdirectories
its own image files (subcategory and sub-subcategory null), otherwise the
yield of each subcategory in listing order. -/
def walkCategory (cat : Entry) : List Task :=
  let subcategories := subdirsOf (dirEntries cat)
  if subcategories.length = 0 then
    (imageFilesIn (dirEntries cat)).map fun f =>
      { entry := f, category := entryName cat, subcategory := none, subsubcategory := none }
  else
    subcategories.flatMap (walkSubcat (entryName cat))

/-- The full discovery order of walkAndUpload over the base directory
listing: depth-first, siblings in listing order, category directories
only. -/
def walkFiles (base : List Entry) : List Task :=
  (subdirsOf base).flatMap walkCategory

/-- The per-file progress line walkAndUpload prints just before calling
processFile on a task. -/
def stepState (st : WorldState) (t : Task) : WorldState :=
  { st with
    log := st.log ++ [LogLine.processing (taskFilename t) t.category t.subcategory t.subsubcategory] }

/-- The processing loop of walkAndUpload: prints the per-file progress
line, runs processFile, and continues on Except.ok; the first error stops
the loop (the awaited rejection propagates out of walkAndUpload). -/
def runTasks (st : WorldState) (ts : List Task) : WorldState × Option PipelineError :=
  match ts with
  | [] => (st, none)
  | t :: rest =>
    match processFile (stepState st t) t with
    | (st1, Except.ok _) => runTasks st1 rest
    | (st1, Except.error e) => (st1, some e)

/-- Outcome of a whole run: the process exit status and the final world. -/
structure RunResult where
  exitCode : Nat
  state : WorldState
deriving Repr

/-- walkAndUpload over a base-directory listing: walks the tree and
processes every discovered file in order.  A completed run prints the fixed
completion line and exits 0; a rejected run is caught by the top-level
catch handler, which exits 1. -/
def walkAndUpload (base : List Entry) : RunResult :=
  match runTasks initialState (walkFiles base) with
  | (st, none) =>
      { exitCode := 0, state := { st with log := st.log ++ [LogLine.complete] } }
  | (st, some _) => { exitCode := 1, state := st }

/-- Classification of what processFile does with one task, determined by
the task's entry alone (the state never influences it). -/
inductive Outcome where
  | skippedFile
  | doneFile
  | fatalFile
deriving DecidableEq, Repr

/-- The outcome of a task: unreadable (or directory) entries are skipped;
a decode failure or any upload/insert fault is fatal; otherwise the file
reaches Done. -/
def taskOutcome (t : Task) : Outcome :=
  match readFileEntry t.entry with
  | none => Outcome.skippedFile
  | some spec =>
    match spec.image with
    | none => Outcome.fatalFile
    | some _ =>
      if spec.thumbUploadOk && spec.fullUploadOk && spec.insertOk then Outcome.doneFile
      else Outcome.fatalFile

/-- Whether a task aborts the run. -/
def taskFatal (t : Task) : Bool :=
  match taskOutcome t with
  | Outcome.fatalFile => true
  | _ => false

/-- Whether a task is skipped at the read step. -/
def taskSkip (t : Task) : Bool :=
  match taskOutcome t with
  | Outcome.skippedFile => true
  | _ => false

/-- Whether a task reaches Done (a metadata record is inserted). -/
def taskDone (t : Task) : Bool :=
  match taskOutcome t with
  | Outcome.doneFile => true
  | _ => false

/-- Count of skip lines in a log (one per file skipped at the read step). -/
def countSkipLines (log : List LogLine) : Nat :=
  log.countP fun l => match l with | LogLine.readFail _ => true | _ => false

/-- Count of success lines in a log (one per file reaching Done). -/
def countSuccessLines (log : List LogLine) : Nat :=
  log.countP fun l => match l with | LogLine.success _ => true | _ => false

end Upload

namespace Server

/-- Hex-digit test used by ObjectId validation. -/
def isHexDigit (c : Char) : Bool :=
  c.isDigit || (Char.ofNat 97 ≤ c && c ≤ Char.ofNat 102) || (Char.ofNat 65 ≤ c && c ≤ Char.ofNat 70)

/-- Well-formedness of a GridFS object id string: the validation the
ObjectId constructor in the driver applies (a 24-character hex string);
the constructor throws on anything else. -/
def isValidObjectId (s : String) : Bool :=
  s.data.length = 24 && s.data.all isHexDigit

/-- A stored blob as the read side sees it: its id, the stored content
type from the files collection document (optional in the document), the
bytes the download stream yields, and whether that stream faults
mid-transfer. -/
structure StoredBlob where
  id : String
  contentType : Option String
  bytes : List Nat
  streamFaults : Bool
deriving DecidableEq, Repr

/-- The response the file endpoint produces, with the headers it sets. -/
structure HttpResponse where
  status : Nat
  contentType : Option String
  cacheControl : Option String
  body : Option (List Nat)
deriving DecidableEq, Repr

/-- The long-lived cache directive the endpoint sets for every served
blob. -/
def longCacheDirective : String :=
  "public, max-age=31536000, immutable"

/-- The GET /api/file/:fileId handler of server.js: 400 when the id fails
ObjectId validation, 404 when no files-collection document matches, 500
when the download stream faults; otherwise the bytes are served with the
stored content type (defaulted to image/webp) and the long cache
directive.  Content headers are set before the stream is opened, so the
fault branch has already set them. -/
def getFileById (files : List StoredBlob) (fileId : String) : HttpResponse :=
  if !(isValidObjectId fileId) then
    { status := 400, contentType := none, cacheControl := none, body := none }
  else
    match files.find? (fun b => b.id == fileId) with
    | none => { status := 404, contentType := none, cacheControl := none, body := none }
    | some fileDoc =>
      let contentType := fileDoc.contentType.getD "image/webp"
      if fileDoc.streamFaults then
        { status := 500, contentType := some contentType,
          cacheControl := some longCacheDirective, body := none }
      else
        { status := 200, contentType := some contentType,
          cacheControl := some longCacheDirective, body := some fileDoc.bytes }

end Server

namespace Upload

/-- The blob the thumbnail upload of a done task appends, given the id
counter at entry. -/
def thumbBlobOf (t : Task) (img : Image) (baseId : Nat) : BlobRecord :=
  { id := baseId, filename := taskFilename t ++ "-thumb.webp", contentType := "image/webp",
    tags := { category := t.category, subcategory := t.subcategory,
              subsubcategory := t.subsubcategory, variant := "thumbnail" },
    buf := mkThumb img }

/-- The blob the full-variant upload of a done task appends. -/
def fullBlobOf (t : Task) (img : Image) (baseId : Nat) : BlobRecord :=
  { id := baseId + 1, filename := taskFilename t ++ "-full.webp", contentType := "image/webp",
    tags := { category := t.category, subcategory := t.subcategory,
              subsubcategory := t.subsubcategory, variant := "full" },
    buf := mkFull img }

/-- The metadata document a done task inserts, given the id counter at
entry. -/
def metaDocOf (t : Task) (img : Image) (baseId : Nat) : MetaDoc :=
  { filename := taskFilename t,
    alt := stripImageExt (taskFilename t),
    category := t.category,
    subcategory := t.subcategory,
    subsubcategory := t.subsubcategory,
    thumbnailId := baseId,
    fullId := baseId + 1,
    lqip := "data:image/webp;base64," ++ (mkLqip img).base64,
    origWidth := if img.width = 0 then none else some img.width,
    origHeight := if img.height = 0 then none else some img.height,
    origFormat := if img.format = "" then none else some img.format }

/-- The state after a skipped task: only the skip line is logged. -/
def skipState (st : WorldState) (t : Task) : WorldState :=
  { st with log := st.log ++ [LogLine.readFail (taskFilename t)] }

/-- The state after a done task: two blobs appended with consecutive
store-assigned ids, one metadata document inserted, one insert attempt,
and the success line logged. -/
def doneState (st : WorldState) (t : Task) (img : Image) : WorldState :=
  { store := { nextId := st.store.nextId + 2,
               blobs := st.store.blobs
                 ++ [thumbBlobOf t img st.store.nextId, fullBlobOf t img st.store.nextId] },
    metaDocs := st.metaDocs ++ [metaDocOf t img st.store.nextId],
    insertAttempts := st.insertAttempts + 1,
    log := st.log ++ [LogLine.success (taskFilename t)] }

theorem processFile_skip (st : WorldState) (t : Task)
    (h : taskOutcome t = Outcome.skippedFile) :
    processFile st t = (skipState st t, Except.ok none) := by
  unfold taskOutcome at h
  split at h
  · rename_i heq
    simp only [processFile, heq, skipState]
  · rename_i spec heq
    split at h
    · simp at h
    · split at h <;> simp at h

end Upload

namespace Upload

theorem processFile_fatal (st : WorldState) (t : Task)
    (h : taskOutcome t = Outcome.fatalFile) :
    ∃ st1 e, processFile st t = (st1, Except.error e)
      ∧ st1.metaDocs = st.metaDocs ∧ st1.log = st.log := by
  unfold taskOutcome at h
  split at h
  · simp at h
  · rename_i spec heq
    split at h
    · rename_i hi
      exact ⟨st, PipelineError.decodeError (taskFilename t),
        by simp only [processFile, heq, hi], rfl, rfl⟩
    · rename_i img hi
      split at h
      · simp at h
      · rename_i hflags
        cases ht : spec.thumbUploadOk with
        | false =>
          refine ⟨st, PipelineError.uploadError (taskFilename t ++ "-thumb.webp"), ?_, rfl, rfl⟩
          simp [processFile, heq, hi, uploadBufferToGridFS, ht]
        | true =>
          cases hf : spec.fullUploadOk with
          | false =>
            refine ⟨{ st with store := { nextId := st.store.nextId + 1,
                                         blobs := st.store.blobs
                                           ++ [thumbBlobOf t img st.store.nextId] } },
              PipelineError.uploadError (taskFilename t ++ "-full.webp"), ?_, rfl, rfl⟩
            simp [processFile, heq, hi, uploadBufferToGridFS, ht, hf, thumbBlobOf]
          | true =>
            cases hins : spec.insertOk with
            | false =>
              refine ⟨{ st with insertAttempts := st.insertAttempts + 1,
                                store := { nextId := st.store.nextId + 2,
                                           blobs := st.store.blobs
                                             ++ [thumbBlobOf t img st.store.nextId,
                                                 fullBlobOf t img st.store.nextId] } },
                PipelineError.indexWriteError (taskFilename t), ?_, rfl, rfl⟩
              simp [processFile, heq, hi, uploadBufferToGridFS, ht, hf, hins,
                thumbBlobOf, fullBlobOf]
            | true => rw [ht, hf, hins] at hflags; simp at hflags

theorem processFile_done (st : WorldState) (t : Task)
    (h : taskOutcome t = Outcome.doneFile) :
    ∃ img spec, readFileEntry t.entry = some spec ∧ spec.image = some img ∧
      processFile st t = (doneState st t img, Except.ok (some st.metaDocs.length)) := by
  unfold taskOutcome at h
  split at h
  · simp at h
  · rename_i spec heq
    split at h
    · simp at h
    · rename_i img hi
      split at h
      · rename_i hflags
        simp only [Bool.and_eq_true] at hflags
        obtain ⟨⟨ht, hf⟩, hins⟩ := hflags
        refine ⟨img, spec, heq, hi, ?_⟩
        simp [processFile, heq, hi, uploadBufferToGridFS, ht, hf, hins,
          doneState, thumbBlobOf, fullBlobOf, metaDocOf]
      · simp at h

end Upload

namespace Upload

theorem countSkipLines_append (l1 l2 : List LogLine) :
    countSkipLines (l1 ++ l2) = countSkipLines l1 + countSkipLines l2 :=
  List.countP_append _ _ _

theorem countSuccessLines_append (l1 l2 : List LogLine) :
    countSuccessLines (l1 ++ l2) = countSuccessLines l1 + countSuccessLines l2 :=
  List.countP_append _ _ _

theorem runTasks_spec (ts : List Task) : ∀ st : WorldState,
    ((runTasks st ts).2 = none ↔ ∀ t ∈ ts, taskFatal t = false) ∧
    (runTasks st ts).1.metaDocs.map MetaDoc.filename
      = st.metaDocs.map MetaDoc.filename
        ++ ((ts.takeWhile fun t => !taskFatal t).filter taskDone).map taskFilename ∧
    countSkipLines (runTasks st ts).1.log
      = countSkipLines st.log + ((ts.takeWhile fun t => !taskFatal t).filter taskSkip).length ∧
    countSuccessLines (runTasks st ts).1.log
      = countSuccessLines st.log + ((ts.takeWhile fun t => !taskFatal t).filter taskDone).length := by
  induction ts with
  | nil => intro st; refine ⟨by simp [runTasks], ?_, ?_, ?_⟩ <;> simp [runTasks]
  | cons t rest ih =>
    intro st
    cases ho : taskOutcome t with
    | skippedFile =>
      have hft : taskFatal t = false := by simp [taskFatal, ho]
      have hsk : taskSkip t = true := by simp [taskSkip, ho]
      have hdn : taskDone t = false := by simp [taskDone, ho]
      have hpf := processFile_skip (stepState st t) t ho
      have hrw : runTasks st (t :: rest) = runTasks (skipState (stepState st t) t) rest := by
        simp only [runTasks, hpf]
      obtain ⟨ih1, ih2, ih3, ih4⟩ := ih (skipState (stepState st t) t)
      rw [hrw]
      refine ⟨?_, ?_, ?_, ?_⟩
      · rw [ih1]
        simp [hft]
      · rw [ih2]
        simp [skipState, stepState, List.takeWhile_cons, hft, List.filter_cons, hdn]
      · rw [ih3]
        simp only [skipState, stepState]
        rw [countSkipLines_append, countSkipLines_append]
        simp [List.takeWhile_cons, hft, List.filter_cons, hsk, countSkipLines]
        omega
      · rw [ih4]
        simp only [skipState, stepState]
        rw [countSuccessLines_append, countSuccessLines_append]
        simp [List.takeWhile_cons, hft, List.filter_cons, hdn, countSuccessLines]
    | doneFile =>
      have hft : taskFatal t = false := by simp [taskFatal, ho]
      have hsk : taskSkip t = false := by simp [taskSkip, ho]
      have hdn : taskDone t = true := by simp [taskDone, ho]
      obtain ⟨img, spec, hre, hi, hpf⟩ := processFile_done (stepState st t) t ho
      have hrw : runTasks st (t :: rest) = runTasks (doneState (stepState st t) t img) rest := by
        simp only [runTasks, hpf]
      obtain ⟨ih1, ih2, ih3, ih4⟩ := ih (doneState (stepState st t) t img)
      rw [hrw]
      refine ⟨?_, ?_, ?_, ?_⟩
      · rw [ih1]
        simp [hft]
      · rw [ih2]
        simp [doneState, stepState, List.takeWhile_cons, hft, List.filter_cons, hdn, metaDocOf]
      · rw [ih3]
        simp only [doneState, stepState]
        rw [countSkipLines_append, countSkipLines_append]
        simp [List.takeWhile_cons, hft, List.filter_cons, hsk, countSkipLines]
      · rw [ih4]
        simp only [doneState, stepState]
        rw [countSuccessLines_append, countSuccessLines_append]
        simp [List.takeWhile_cons, hft, List.filter_cons, hdn, countSuccessLines]
        omega
    | fatalFile =>
      have hft : taskFatal t = true := by simp [taskFatal, ho]
      obtain ⟨st1, e, hpf, hmd, hlg⟩ := processFile_fatal (stepState st t) t ho
      have hrw : runTasks st (t :: rest) = (st1, some e) := by
        simp only [runTasks, hpf]
      rw [hrw]
      refine ⟨?_, ?_, ?_, ?_⟩
      · refine ⟨fun hcontra => absurd hcontra (by simp), fun hall => ?_⟩
        have h2 := hall t (List.mem_cons_self t rest)
        rw [hft] at h2
        exact absurd h2 (by simp)
      · rw [hmd]
        simp [stepState, List.takeWhile_cons, hft]
      · rw [hlg]
        simp only [stepState]
        rw [countSkipLines_append]
        simp [List.takeWhile_cons, hft, countSkipLines]
      · rw [hlg]
        simp only [stepState]
        rw [countSuccessLines_append]
        simp [List.takeWhile_cons, hft, countSuccessLines]

end Upload

namespace Upload

/-- A call of processFile that returns an inserted id went through the
done path. -/
theorem processFile_ok_some_outcome (st : WorldState) (t : Task) (st' : WorldState) (oid : Nat)
    (h : processFile st t = (st', Except.ok (some oid))) :
    taskOutcome t = Outcome.doneFile := by
  cases ho : taskOutcome t with
  | skippedFile => rw [processFile_skip st t ho] at h; simp at h
  | doneFile => rfl
  | fatalFile =>
    obtain ⟨st1, e, hpf, _, _⟩ := processFile_fatal st t ho
    rw [hpf] at h
    simp at h

/-- A fixed decodable demo image. -/
def demoImage : Image :=
  { width := 800, height := 500, format := "jpeg" }

/-- A file whose read, decode, uploads and insert all succeed. -/
def demoGoodSpec : FileSpec :=
  { readable := true, image := some demoImage,
    thumbUploadOk := true, fullUploadOk := true, insertOk := true }

/-- A file whose read fails (missing/unreadable/permission denied). -/
def demoUnreadableSpec : FileSpec :=
  { readable := false, image := some demoImage,
    thumbUploadOk := true, fullUploadOk := true, insertOk := true }

/-- A readable file whose bytes the codec cannot decode. -/
def demoCorruptSpec : FileSpec :=
  { readable := true, image := none,
    thumbUploadOk := true, fullUploadOk := true, insertOk := true }

/-- A demo walker tuple for a single good file. -/
def demoTask : Task :=
  { entry := Entry.file "a.jpg" demoGoodSpec, category := "Ribbons",
    subcategory := some "Velvet", subsubcategory := none }

/-- C4: for every accepted (decodable) source image, the thumbnail is
produced at width at most 600 and quality 75, the full variant at width at
most 1600 and quality 82, neither is upscaled beyond the source width, and
the thumbnail is no wider than the full variant. -/
theorem C4_variant_resize_policy (img : Image) :
    (mkThumb img).width ≤ 600 ∧ (mkThumb img).quality = 75 ∧
    (mkFull img).width ≤ 1600 ∧ (mkFull img).quality = 82 ∧
    (mkThumb img).width ≤ img.width ∧ (mkFull img).width ≤ img.width ∧
    (mkThumb img).width ≤ (mkFull img).width := by
  refine ⟨?_, rfl, ?_, rfl, ?_, ?_, ?_⟩ <;>
    simp [mkThumb, mkFull, sharpResizeWidth]

/-- C10: a decodable source narrower than 20 pixels has its placeholder
upscaled to exactly width 20 (the placeholder resize omits the
no-enlargement option), while the thumbnail and full variants are still
never upscaled. -/
theorem C10_lqip_upscales_narrow_sources (img : Image) (h : img.width < 20) :
    (mkLqip img).width = 20 ∧ img.width < (mkLqip img).width ∧
    (mkThumb img).width ≤ img.width ∧ (mkFull img).width ≤ img.width := by
  refine ⟨rfl, ?_, ?_, ?_⟩
  · simpa [mkLqip, sharpResizeWidth] using h
  · simp [mkThumb, sharpResizeWidth]
  · simp [mkFull, sharpResizeWidth]

/-- Witness for C10 at a 5-pixel-wide source image. -/
theorem C10_lqip_upscales_narrow_sources_witness :
    ({ width := 5, height := 5, format := "png" } : Image).width < 20 ∧
      ((mkLqip { width := 5, height := 5, format := "png" }).width = 20 ∧
       ({ width := 5, height := 5, format := "png" } : Image).width
         < (mkLqip { width := 5, height := 5, format := "png" }).width ∧
       (mkThumb { width := 5, height := 5, format := "png" }).width
         ≤ ({ width := 5, height := 5, format := "png" } : Image).width ∧
       (mkFull { width := 5, height := 5, format := "png" }).width
         ≤ ({ width := 5, height := 5, format := "png" } : Image).width) :=
  ⟨by decide, C10_lqip_upscales_narrow_sources { width := 5, height := 5, format := "png" } (by decide)⟩

end Upload

namespace Server

/-- C9: the file-streaming endpoint answers 400 on a malformed object id,
404 when no stored blob matches, 500 when the download stream faults, and
otherwise serves the bytes with the blob's stored content type and the
long-lived cache directive. -/
theorem C9_file_endpoint (files : List StoredBlob) (fileId : String) :
    (isValidObjectId fileId = false → (getFileById files fileId).status = 400) ∧
    (isValidObjectId fileId = true →
      files.find? (fun b => b.id == fileId) = none →
      (getFileById files fileId).status = 404) ∧
    (∀ doc, isValidObjectId fileId = true →
      files.find? (fun b => b.id == fileId) = some doc →
      doc.streamFaults = true →
      (getFileById files fileId).status = 500) ∧
    (∀ doc, isValidObjectId fileId = true →
      files.find? (fun b => b.id == fileId) = some doc →
      doc.streamFaults = false →
      getFileById files fileId
        = { status := 200, contentType := some (doc.contentType.getD "image/webp"),
            cacheControl := some longCacheDirective, body := some doc.bytes }) := by
  refine ⟨?_, ?_, ?_, ?_⟩
  · intro hbad
    simp [getFileById, hbad]
  · intro hval hnone
    simp [getFileById, hval, hnone]
  · intro doc hval hfind hfault
    simp [getFileById, hval, hfind, hfault]
  · intro doc hval hfind hok
    simp [getFileById, hval, hfind, hok]

/-- A demo stored blob with a healthy download stream. -/
def demoStoredBlob : StoredBlob :=
  { id := "aaaaaaaaaaaaaaaaaaaaaaaa", contentType := some "image/png",
    bytes := [7, 8, 9], streamFaults := false }

/-- Witness for C9: the success branch at a well-formed id that matches
the demo blob. -/
theorem C9_file_endpoint_witness :
    getFileById [demoStoredBlob] "aaaaaaaaaaaaaaaaaaaaaaaa"
      = { status := 200, contentType := some (demoStoredBlob.contentType.getD "image/webp"),
          cacheControl := some longCacheDirective, body := some demoStoredBlob.bytes } :=
  (C9_file_endpoint [demoStoredBlob] "aaaaaaaaaaaaaaaaaaaaaaaa").2.2.2 demoStoredBlob
    (by decide) (by decide) (by decide)

end Server

namespace Upload

/-- C1: whenever processFile returns an inserted id, exactly one metadata
document was inserted, its two blob references carry the store-assigned
ids of blobs present in the store at the moment the record was written
(the thumbnail and full uploads completed first), and exactly one insert
was attempted. -/
theorem C1_record_written_after_uploads (st : WorldState) (t : Task) (st' : WorldState)
    (oid : Nat) (h : processFile st t = (st', Except.ok (some oid))) :
    ∃ d : MetaDoc,
      st'.metaDocs = st.metaDocs ++ [d] ∧
      (∃ b ∈ st'.store.blobs, b.id = d.thumbnailId ∧ b.tags.variant = "thumbnail") ∧
      (∃ b ∈ st'.store.blobs, b.id = d.fullId ∧ b.tags.variant = "full") ∧
      st'.insertAttempts = st.insertAttempts + 1 := by
  have ho := processFile_ok_some_outcome st t st' oid h
  obtain ⟨img, spec, hre, hi, hpf⟩ := processFile_done st t ho
  rw [hpf] at h
  have hst : st' = doneState st t img := (congrArg Prod.fst h).symm
  subst hst
  refine ⟨metaDocOf t img st.store.nextId, rfl, ?_, ?_, rfl⟩
  · exact ⟨thumbBlobOf t img st.store.nextId, by simp [doneState], rfl, rfl⟩
  · exact ⟨fullBlobOf t img st.store.nextId, by simp [doneState], rfl, rfl⟩

/-- Witness for C1 at the demo task processed from the initial state. -/
theorem C1_record_written_after_uploads_witness :
    ∃ d : MetaDoc,
      (doneState initialState demoTask demoImage).metaDocs = initialState.metaDocs ++ [d] ∧
      (∃ b ∈ (doneState initialState demoTask demoImage).store.blobs,
        b.id = d.thumbnailId ∧ b.tags.variant = "thumbnail") ∧
      (∃ b ∈ (doneState initialState demoTask demoImage).store.blobs,
        b.id = d.fullId ∧ b.tags.variant = "full") ∧
      (doneState initialState demoTask demoImage).insertAttempts
        = initialState.insertAttempts + 1 :=
  C1_record_written_after_uploads initialState demoTask
    (doneState initialState demoTask demoImage) 0 (by rfl)

/-- C7: whenever processFile returns an inserted id, the inserted record
embeds the placeholder as a MIME-prefixed base64 data string of the
20-pixel-wide blurred quality-30 variant, and the only blobs uploaded are
the thumbnail and full variants — the placeholder buffer is never
uploaded as a blob of its own. -/
theorem C7_placeholder_inline_not_uploaded (st : WorldState) (t : Task) (st' : WorldState)
    (oid : Nat) (h : processFile st t = (st', Except.ok (some oid))) :
    ∃ img d,
      st'.metaDocs = st.metaDocs ++ [d] ∧
      d.lqip = "data:image/webp;base64," ++ (mkLqip img).base64 ∧
      (mkLqip img).width = 20 ∧ (mkLqip img).quality = 30 ∧ (mkLqip img).blurred = true ∧
      st'.store.blobs = st.store.blobs
        ++ [thumbBlobOf t img st.store.nextId, fullBlobOf t img st.store.nextId] ∧
      (∀ b ∈ st'.store.blobs, b ∉ st.store.blobs → b.buf ≠ mkLqip img) := by
  have ho := processFile_ok_some_outcome st t st' oid h
  obtain ⟨img, spec, hre, hi, hpf⟩ := processFile_done st t ho
  rw [hpf] at h
  have hst : st' = doneState st t img := (congrArg Prod.fst h).symm
  subst hst
  refine ⟨img, metaDocOf t img st.store.nextId, rfl, rfl, rfl, rfl, rfl, rfl, ?_⟩
  intro b hb hnot
  have hb2 : b = thumbBlobOf t img st.store.nextId ∨ b = fullBlobOf t img st.store.nextId := by
    have := by simpa [doneState] using hb
    rcases this with hin | hthumb | hfull
    · exact absurd hin hnot
    · exact Or.inl hthumb
    · exact Or.inr hfull
  intro hcontra
  rcases hb2 with hb2 | hb2 <;> rw [hb2] at hcontra
  · have hq := congrArg VariantBuf.quality hcontra
    simp [thumbBlobOf, mkThumb, mkLqip] at hq
  · have hq := congrArg VariantBuf.quality hcontra
    simp [fullBlobOf, mkFull, mkLqip] at hq

/-- Witness for C7 at the demo task processed from the initial state. -/
theorem C7_placeholder_inline_not_uploaded_witness :
    ∃ img d,
      (doneState initialState demoTask demoImage).metaDocs = initialState.metaDocs ++ [d] ∧
      d.lqip = "data:image/webp;base64," ++ (mkLqip img).base64 ∧
      (mkLqip img).width = 20 ∧ (mkLqip img).quality = 30 ∧ (mkLqip img).blurred = true ∧
      (doneState initialState demoTask demoImage).store.blobs = initialState.store.blobs
        ++ [thumbBlobOf demoTask img initialState.store.nextId,
            fullBlobOf demoTask img initialState.store.nextId] ∧
      (∀ b ∈ (doneState initialState demoTask demoImage).store.blobs,
        b ∉ initialState.store.blobs → b.buf ≠ mkLqip img) :=
  C7_placeholder_inline_not_uploaded initialState demoTask
    (doneState initialState demoTask demoImage) 0 (by rfl)

end Upload

namespace Upload

/-- A base listing whose middle file is corrupt: the run aborts there. -/
def demoAbortBase : List Entry :=
  [Entry.dir "Cat" [Entry.file "ok1.jpg" demoGoodSpec,
    Entry.file "bad.jpg" demoCorruptSpec,
    Entry.file "ok2.jpg" demoGoodSpec]]

/-- A base listing with one unreadable file among good ones. -/
def demoSkipBase : List Entry :=
  [Entry.dir "Cat" [Entry.file "bad.jpg" demoUnreadableSpec,
    Entry.file "ok1.jpg" demoGoodSpec]]

/-- C2: a fatal failure (decode, upload or index write) on any discovered
file aborts the whole run with exit status 1, and the records inserted are
exactly those of the done files strictly before the first fatal file in
traversal order — no record is persisted for any later file. -/
theorem C2_fatal_failure_aborts_run (base : List Entry)
    (h : ∃ t ∈ walkFiles base, taskFatal t = true) :
    (walkAndUpload base).exitCode = 1 ∧
    (walkAndUpload base).state.metaDocs.map MetaDoc.filename
      = (((walkFiles base).takeWhile fun t => !taskFatal t).filter taskDone).map taskFilename := by
  obtain ⟨hiff, hmd, h3, h4⟩ := runTasks_spec (walkFiles base) initialState
  rcases hr : runTasks initialState (walkFiles base) with ⟨stf, err⟩
  rw [hr] at hiff hmd
  cases err with
  | none =>
    exfalso
    obtain ⟨t, hmem, hfat⟩ := h
    have h2 := hiff.mp rfl t hmem
    rw [hfat] at h2
    exact absurd h2 (by simp)
  | some e =>
    refine ⟨by simp [walkAndUpload, hr], ?_⟩
    have hstate : (walkAndUpload base).state = stf := by simp [walkAndUpload, hr]
    rw [hstate]
    simpa [initialState] using hmd

/-- Witness for C2 at a base listing whose second file is corrupt. -/
theorem C2_fatal_failure_aborts_run_witness :
    (walkAndUpload demoAbortBase).exitCode = 1 ∧
    (walkAndUpload demoAbortBase).state.metaDocs.map MetaDoc.filename
      = (((walkFiles demoAbortBase).takeWhile fun t => !taskFatal t).filter taskDone).map
          taskFilename :=
  C2_fatal_failure_aborts_run demoAbortBase
    (List.any_eq_true.mp (by rfl :
      ((walkFiles demoAbortBase).any fun t => taskFatal t) = true))

/-- C3: when no discovered file is fatal, read failures are recovered
per-file: the run completes with exit status 0 and persists one record per
done file; a read-failed task only logs the skip line, uploads nothing,
inserts nothing, and the loop advances. -/
theorem C3_read_failure_recovered (base : List Entry)
    (h : ∀ t ∈ walkFiles base, taskFatal t = false) :
    (walkAndUpload base).exitCode = 0 ∧
    (walkAndUpload base).state.metaDocs.map MetaDoc.filename
      = ((walkFiles base).filter taskDone).map taskFilename ∧
    ∀ (st : WorldState) (t : Task), taskOutcome t = Outcome.skippedFile →
      processFile st t = (skipState st t, Except.ok none) ∧
      (skipState st t).store = st.store ∧ (skipState st t).metaDocs = st.metaDocs := by
  obtain ⟨hiff, hmd, h3, h4⟩ := runTasks_spec (walkFiles base) initialState
  rcases hr : runTasks initialState (walkFiles base) with ⟨stf, err⟩
  rw [hr] at hiff hmd
  have herr : err = none := hiff.mpr h
  subst herr
  have htw : (walkFiles base).takeWhile (fun t => !taskFatal t) = walkFiles base :=
    List.takeWhile_eq_self_iff.mpr (by intro x hx; simp [h x hx])
  refine ⟨by simp [walkAndUpload, hr], ?_, ?_⟩
  · have hstate : (walkAndUpload base).state
        = { stf with log := stf.log ++ [LogLine.complete] } := by
      simp [walkAndUpload, hr]
    rw [hstate]
    rw [htw] at hmd
    simpa [initialState] using hmd
  · intro st t hsk
    exact ⟨processFile_skip st t hsk, rfl, rfl⟩

/-- Witness for C3 at a base listing with one unreadable and one good
file. -/
theorem C3_read_failure_recovered_witness :
    (walkAndUpload demoSkipBase).exitCode = 0 ∧
    (walkAndUpload demoSkipBase).state.metaDocs.map MetaDoc.filename
      = ((walkFiles demoSkipBase).filter taskDone).map taskFilename ∧
    ∀ (st : WorldState) (t : Task), taskOutcome t = Outcome.skippedFile →
      processFile st t = (skipState st t, Except.ok none) ∧
      (skipState st t).store = st.store ∧ (skipState st t).metaDocs = st.metaDocs :=
  C3_read_failure_recovered demoSkipBase (by
    intro t ht
    have h2 := List.all_eq_true.mp
      (by rfl : ((walkFiles demoSkipBase).all fun t => !taskFatal t) = true) t ht
    simpa using h2)

/-- The lexical (code-point) order on names that the spec's "lexical
(sorted) order" wording refers to.  Modelled from the spec: the source
never sorts its directory listings, so this order exists only on the
specification side, for comparison. -/
def specLexLe : List Char → List Char → Bool
  | [], _ => true
  | _ :: _, [] => false
  | a :: as, b :: bs =>
    if a.toNat < b.toNat then true
    else if a.toNat = b.toNat then specLexLe as bs
    else false

/-- Two sibling category directories listed in non-lexical order. -/
def demoUnsortedBase : List Entry :=
  [Entry.dir "B" [Entry.file "b.jpg" demoGoodSpec],
   Entry.dir "A" [Entry.file "a.jpg" demoGoodSpec]]

/-- C6 counterexample: with sibling categories listed as B before A, the
records are inserted B-first although A precedes B lexically — the walker
follows the directory-listing order, not a sorted order. -/
theorem C6_counterexample_listing_not_sorted :
    (walkAndUpload demoUnsortedBase).state.metaDocs.map MetaDoc.category = ["B", "A"] ∧
    specLexLe "A".data "B".data = true ∧
    specLexLe "B".data "A".data = false := by
  refine ⟨by decide, by rfl, by rfl⟩

/-- C6 (amended): records are inserted in exactly the walker's discovery
order — depth-first with siblings in directory-listing order — so the
order is determined by the directory tree's listings; the implementation
does not sort the listings. -/
theorem C6_insertion_follows_discovery (base : List Entry) :
    (walkAndUpload base).state.metaDocs.map MetaDoc.filename
      = (((walkFiles base).takeWhile fun t => !taskFatal t).filter taskDone).map taskFilename := by
  obtain ⟨hiff, hmd, h3, h4⟩ := runTasks_spec (walkFiles base) initialState
  rcases hr : runTasks initialState (walkFiles base) with ⟨stf, err⟩
  rw [hr] at hmd
  cases err with
  | none =>
    have hstate : (walkAndUpload base).state
        = { stf with log := stf.log ++ [LogLine.complete] } := by
      simp [walkAndUpload, hr]
    rw [hstate]
    simpa [initialState] using hmd
  | some e =>
    have hstate : (walkAndUpload base).state = stf := by simp [walkAndUpload, hr]
    rw [hstate]
    simpa [initialState] using hmd

end Upload

namespace Upload

/-- A base listing with exactly one good file: one processed, none
skipped. -/
def demoOneDoneBase : List Entry :=
  [Entry.dir "Cat" [Entry.file "ok1.jpg" demoGoodSpec]]

/-- A base listing with exactly one unreadable file: none processed, one
skipped. -/
def demoOneSkipBase : List Entry :=
  [Entry.dir "Cat" [Entry.file "bad.jpg" demoUnreadableSpec]]

/-- C8 counterexample: two completed runs with different processed/skipped
counts end with the identical, fixed completion line — the final report
carries no count of processed versus skipped files. -/
theorem C8_counterexample_fixed_final_line :
    countSuccessLines (walkAndUpload demoOneDoneBase).state.log = 1 ∧
    countSkipLines (walkAndUpload demoOneDoneBase).state.log = 0 ∧
    countSuccessLines (walkAndUpload demoOneSkipBase).state.log = 0 ∧
    countSkipLines (walkAndUpload demoOneSkipBase).state.log = 1 ∧
    (walkAndUpload demoOneDoneBase).state.log.getLast?
      = (walkAndUpload demoOneSkipBase).state.log.getLast? ∧
    (walkAndUpload demoOneDoneBase).state.log.getLast? = some LogLine.complete ∧
    LogLine.complete.render = "*** COMPLETE: All images processed. ***" := by
  decide

/-- C8 (amended): a completed run ends with the fixed completion line
(which carries no counts); the per-file log lines are the accurate tally —
the success lines equal the files that reached Done (and the inserted
records), the skip lines equal the files skipped at the read step. -/
theorem C8_per_file_lines_accurate (base : List Entry)
    (h : (walkAndUpload base).exitCode = 0) :
    (walkAndUpload base).state.log.getLast? = some LogLine.complete ∧
    countSuccessLines (walkAndUpload base).state.log
      = ((walkFiles base).filter taskDone).length ∧
    countSkipLines (walkAndUpload base).state.log
      = ((walkFiles base).filter taskSkip).length ∧
    (walkAndUpload base).state.metaDocs.length
      = ((walkFiles base).filter taskDone).length := by
  obtain ⟨hiff, hmd, hsk, hsc⟩ := runTasks_spec (walkFiles base) initialState
  rcases hr : runTasks initialState (walkFiles base) with ⟨stf, err⟩
  rw [hr] at hiff hmd hsk hsc
  cases err with
  | some e => simp [walkAndUpload, hr] at h
  | none =>
    have hall : ∀ t ∈ walkFiles base, taskFatal t = false := hiff.mp rfl
    have htw : (walkFiles base).takeWhile (fun t => !taskFatal t) = walkFiles base :=
      List.takeWhile_eq_self_iff.mpr (by intro x hx; simp [hall x hx])
    rw [htw] at hmd hsk hsc
    have hstate : (walkAndUpload base).state
        = { stf with log := stf.log ++ [LogLine.complete] } := by
      simp [walkAndUpload, hr]
    rw [hstate]
    refine ⟨by simp, ?_, ?_, ?_⟩
    · rw [countSuccessLines_append]
      have hone : countSuccessLines [LogLine.complete] = 0 := rfl
      rw [hone]
      simpa [initialState, countSuccessLines] using hsc
    · rw [countSkipLines_append]
      have hone : countSkipLines [LogLine.complete] = 0 := rfl
      rw [hone]
      simpa [initialState, countSkipLines] using hsk
    · have hlen := congrArg List.length hmd
      simpa [initialState] using hlen

/-- Witness for C8 at the one-good-file base listing. -/
theorem C8_per_file_lines_accurate_witness :
    (walkAndUpload demoOneDoneBase).state.log.getLast? = some LogLine.complete ∧
    countSuccessLines (walkAndUpload demoOneDoneBase).state.log
      = ((walkFiles demoOneDoneBase).filter taskDone).length ∧
    countSkipLines (walkAndUpload demoOneDoneBase).state.log
      = ((walkFiles demoOneDoneBase).filter taskSkip).length ∧
    (walkAndUpload demoOneDoneBase).state.metaDocs.length
      = ((walkFiles demoOneDoneBase).filter taskDone).length :=
  C8_per_file_lines_accurate demoOneDoneBase (by rfl)

/-- A subcategory directory holding one sub-subdirectory and one loose
image file. -/
def demoSubcat : Entry :=
  Entry.dir "Velvet" [Entry.dir "Cotton" [Entry.file "x.jpg" demoGoodSpec],
    Entry.file "loose.jpg" demoGoodSpec]

/-- C5: a subcategory with sub-subdirectories yields only files found
inside them, each tagged with its sub-subcategory (loose image files
directly inside the subcategory are not yielded, so they produce no
records); a subcategory without sub-subdirectories yields its own image
files with sub-subcategory absent. -/
theorem C5_loose_files_skipped (category : String) (subcat : Entry) :
    (0 < (subdirsOf (dirEntries subcat)).length →
      ∀ t ∈ walkSubcat category subcat,
        ∃ ss ∈ subdirsOf (dirEntries subcat),
          t.subsubcategory = some (entryName ss) ∧ t.entry ∈ imageFilesIn (dirEntries ss)) ∧
    ((subdirsOf (dirEntries subcat)).length = 0 →
      walkSubcat category subcat
        = (imageFilesIn (dirEntries subcat)).map fun f =>
            { entry := f, category := category,
              subcategory := some (entryName subcat), subsubcategory := none }) := by
  constructor
  · intro hpos t ht
    unfold walkSubcat at ht
    rw [if_pos hpos] at ht
    rw [List.mem_flatMap] at ht
    obtain ⟨ss, hss, hmem⟩ := ht
    unfold filesInSubsub at hmem
    rw [List.mem_map] at hmem
    obtain ⟨f, hf, hft⟩ := hmem
    subst hft
    exact ⟨ss, hss, rfl, hf⟩
  · intro hzero
    unfold walkSubcat
    rw [if_neg (by omega)]

/-- Witness for C5 at a subcategory holding a sub-subdirectory and a loose
file. -/
theorem C5_loose_files_skipped_witness :
    ∀ t ∈ walkSubcat "Ribbons" demoSubcat,
      ∃ ss ∈ subdirsOf (dirEntries demoSubcat),
        t.subsubcategory = some (entryName ss) ∧ t.entry ∈ imageFilesIn (dirEntries ss) :=
  (C5_loose_files_skipped "Ribbons" demoSubcat).1 (by decide)

end Upload
